import Mathlib

/-!
Verification of the dfdx autodiff core against its specification.

The development shallowly embeds the three source files:
  * `src/tensor_ops/div/cpu_kernel.rs` — the scalar and binary division
    kernels over `f32`;
  * `src/tensor_ops/backward.rs` — the `Backward` trait and `try_backward`
    for scalar (`Rank0`) tensors owning a tape;
  * `src/nn/transformer/mod.rs` — the transformer's `forward`,
    `forward_mut` and `update`.
Collaborator components that the repository uses but whose sources are not
part of this snapshot (the gradient store, the tape, the encoder/decoder
modules, the parameter updater) are modelled from the specification; each
such definition says so in its doc comment.
-/

/- ### Model of `f32` values

An `f32` is modelled as NaN, an infinity, or a finite rational.  Finite
arithmetic is modelled by exact rational arithmetic (every concrete value
appearing in the claims — 6.0, 2.0, 3.0, 0.5, 1.5 — is exactly representable
and the IEEE operations on them are exact); the special-value behaviour of
division (division by zero, infinities, NaN propagation) follows IEEE 754.
The negative zero of IEEE 754 is identified with zero: no claim here
distinguishes them. -/
inductive F32 where
  | nan
  | inf
  | neginf
  | finite (q : ℚ)
  deriving DecidableEq

/-- Model of Rust `f32` division `x / y`: NaN propagates; `inf / inf` is NaN;
an infinity divided by a finite value keeps (or flips) its sign; a finite
value divided by an infinity is zero; a nonzero finite value divided by zero
is a signed infinity and `0 / 0` is NaN; otherwise exact rational division. -/
def F32.fdiv : F32 → F32 → F32
  | nan, _ => nan
  | _, nan => nan
  | inf, inf => nan
  | inf, neginf => nan
  | neginf, inf => nan
  | neginf, neginf => nan
  | inf, finite q => if 0 ≤ q then inf else neginf
  | neginf, finite q => if 0 ≤ q then neginf else inf
  | finite _, inf => finite 0
  | finite _, neginf => finite 0
  | finite q, finite r =>
      if r = 0 then
        if q = 0 then nan else if 0 < q then inf else neginf
      else finite (q / r)

/-- Model of Rust `f32` negation `-x`. -/
def F32.fneg : F32 → F32
  | nan => nan
  | inf => neginf
  | neginf => inf
  | finite q => finite (-q)

/-- Model of Rust `y.powi(2)`: squaring. -/
def F32.powi2 : F32 → F32
  | nan => nan
  | inf => inf
  | neginf => inf
  | finite q => finite (q * q)

/-- Whether the value is finite (not NaN and not an infinity). -/
def F32.isFinite : F32 → Bool
  | finite _ => true
  | _ => false

/-- Whether the value is one of the two infinities. -/
def F32.isInf : F32 → Bool
  | inf => true
  | neginf => true
  | _ => false

/-- Whether the value is NaN. -/
def F32.isNaN : F32 → Bool
  | nan => true
  | _ => false

/- ### Division kernels (`src/tensor_ops/div/cpu_kernel.rs`) -/

/-- The scalar-division kernel descriptor: holds the static divisor
(field `scalar` of `ScalarDivKernelOp<f32>`). -/
structure ScalarDivKernelOp where
  scalar : F32

/-- Forward function of the scalar-division kernel: `x / self.scalar`. -/
def ScalarDivKernelOp.f (op : ScalarDivKernelOp) (x : F32) : F32 :=
  F32.fdiv x op.scalar

/-- Derivative of the scalar-division kernel: `1.0 / self.scalar`,
independent of the input. -/
def ScalarDivKernelOp.df (op : ScalarDivKernelOp) (_x : F32) : F32 :=
  F32.fdiv (F32.finite 1) op.scalar

/-- The elementwise binary division kernel descriptor (a unit struct). -/
structure BinaryDivKernelOp where

/-- Forward function of the binary division kernel: `x / y`. -/
def BinaryDivKernelOp.f (_op : BinaryDivKernelOp) (x y : F32) : F32 :=
  F32.fdiv x y

/-- Partial derivative with respect to `x`: `1.0 / y`. -/
def BinaryDivKernelOp.dfdx (_op : BinaryDivKernelOp) (_x y : F32) : F32 :=
  F32.fdiv (F32.finite 1) y

/-- Partial derivative with respect to `y`: `-x / y.powi(2)`. -/
def BinaryDivKernelOp.dfdy (_op : BinaryDivKernelOp) (x y : F32) : F32 :=
  F32.fdiv (F32.fneg x) (F32.powi2 y)

/-- Claim C3: for the scalar-division kernel with static divisor `s`, the
forward function is `x / s` and the derivative is `1 / s` for every input;
in particular with `s = 2.0` and `x = 6.0` the forward value is `3.0` and
the derivative is `0.5`. -/
theorem scalarDiv_kernel_contract :
    (∀ (s x : F32),
        (ScalarDivKernelOp.mk s).f x = F32.fdiv x s
          ∧ (ScalarDivKernelOp.mk s).df x = F32.fdiv (F32.finite 1) s)
    ∧ (ScalarDivKernelOp.mk (F32.finite 2)).f (F32.finite 6) = F32.finite 3
    ∧ (ScalarDivKernelOp.mk (F32.finite 2)).df (F32.finite 6) = F32.finite (1 / 2) := by
  refine ⟨fun s x => ⟨rfl, rfl⟩, ?_, ?_⟩ <;>
    norm_num [ScalarDivKernelOp.f, ScalarDivKernelOp.df, F32.fdiv]

/-- Claim C4: for the binary division kernel, `f(x, y) = x / y`,
`dfdx(x, y) = 1 / y` and `dfdy(x, y) = -x / y²` for every pair of inputs;
at `x = 6.0, y = 2.0` the forward value is `3.0`, `dfdx` is `0.5` and
`dfdy` is `-1.5`. -/
theorem binaryDiv_kernel_contract :
    (∀ (x y : F32),
        BinaryDivKernelOp.mk.f x y = F32.fdiv x y
          ∧ BinaryDivKernelOp.mk.dfdx x y = F32.fdiv (F32.finite 1) y
          ∧ BinaryDivKernelOp.mk.dfdy x y = F32.fdiv (F32.fneg x) (F32.powi2 y))
    ∧ BinaryDivKernelOp.mk.f (F32.finite 6) (F32.finite 2) = F32.finite 3
    ∧ BinaryDivKernelOp.mk.dfdx (F32.finite 6) (F32.finite 2) = F32.finite (1 / 2)
    ∧ BinaryDivKernelOp.mk.dfdy (F32.finite 6) (F32.finite 2) = F32.finite (-(3 / 2)) := by
  refine ⟨fun x y => ⟨rfl, rfl, rfl⟩, ?_, ?_, ?_⟩ <;>
    norm_num [BinaryDivKernelOp.f, BinaryDivKernelOp.dfdx, BinaryDivKernelOp.dfdy,
      F32.fdiv, F32.fneg, F32.powi2]

/-- Claim C10: the binary division kernel is total with no guard on the
divisor; at divisor `y = 0` every one of `f`, `dfdx`, `dfdy` still returns a
value, and that value is non-finite (an infinity or NaN) for every input
`x`. -/
theorem binaryDiv_total_nonfinite_at_zero_divisor :
    ∀ x : F32,
      ((BinaryDivKernelOp.mk.f x (F32.finite 0)).isFinite = false
        ∧ ((BinaryDivKernelOp.mk.f x (F32.finite 0)).isInf = true
            ∨ (BinaryDivKernelOp.mk.f x (F32.finite 0)).isNaN = true))
      ∧ ((BinaryDivKernelOp.mk.dfdx x (F32.finite 0)).isFinite = false
        ∧ ((BinaryDivKernelOp.mk.dfdx x (F32.finite 0)).isInf = true
            ∨ (BinaryDivKernelOp.mk.dfdx x (F32.finite 0)).isNaN = true))
      ∧ ((BinaryDivKernelOp.mk.dfdy x (F32.finite 0)).isFinite = false
        ∧ ((BinaryDivKernelOp.mk.dfdy x (F32.finite 0)).isInf = true
            ∨ (BinaryDivKernelOp.mk.dfdy x (F32.finite 0)).isNaN = true)) := by
  intro x
  cases x with
  | nan =>
      norm_num [BinaryDivKernelOp.f, BinaryDivKernelOp.dfdx, BinaryDivKernelOp.dfdy,
        F32.fdiv, F32.fneg, F32.powi2, F32.isFinite, F32.isInf, F32.isNaN]
  | inf =>
      norm_num [BinaryDivKernelOp.f, BinaryDivKernelOp.dfdx, BinaryDivKernelOp.dfdy,
        F32.fdiv, F32.fneg, F32.powi2, F32.isFinite, F32.isInf, F32.isNaN]
  | neginf =>
      norm_num [BinaryDivKernelOp.f, BinaryDivKernelOp.dfdx, BinaryDivKernelOp.dfdy,
        F32.fdiv, F32.fneg, F32.powi2, F32.isFinite, F32.isInf, F32.isNaN]
  | finite q =>
      rcases lt_trichotomy q 0 with hq | hq | hq
      · norm_num [BinaryDivKernelOp.f, BinaryDivKernelOp.dfdx, BinaryDivKernelOp.dfdy,
          F32.fdiv, F32.fneg, F32.powi2, F32.isFinite, F32.isInf, F32.isNaN,
          hq.ne, not_lt.mpr hq.le, neg_pos.mpr hq, (neg_pos.mpr hq).ne.symm]
      · subst hq
        norm_num [BinaryDivKernelOp.f, BinaryDivKernelOp.dfdx, BinaryDivKernelOp.dfdy,
          F32.fdiv, F32.fneg, F32.powi2, F32.isFinite, F32.isInf, F32.isNaN]
      · norm_num [BinaryDivKernelOp.f, BinaryDivKernelOp.dfdx, BinaryDivKernelOp.dfdy,
          F32.fdiv, F32.fneg, F32.powi2, F32.isFinite, F32.isInf, F32.isNaN,
          hq.ne.symm, hq, neg_lt_zero.mpr hq, not_lt.mpr (neg_nonpos.mpr hq.le),
          (neg_lt_zero.mpr hq).ne]

/- ### Gradient store, tape and the backward driver
(`src/tensor_ops/backward.rs`, with the store and tape modelled from the
specification) -/

/-- Globally-unique tensor identity (spec: assigned at creation, stable). -/
abbrev UniqueId := Nat

/-- Abstract device-error code (`D::Err` in the source). -/
abbrev DevErr := Nat

/-- A gradient buffer: the elements of a device-resident storage, modelled
as a list of exact rationals. -/
abbrev GradBuf := List ℚ

/-- Modelled from the spec: the Gradient Store, a runtime map from tensor
identity to an owned gradient buffer (`Gradients` of the source, whose file
is not part of this snapshot).  Entries are kept as an association list in
insertion order. -/
structure Gradients where
  entries : List (UniqueId × GradBuf)
  deriving DecidableEq

/-- The empty Gradient Store a `backward` call starts from. -/
def Gradients.empty : Gradients := ⟨[]⟩

/-- Lookup of an identity in the store's association list. -/
def lookupEntry : List (UniqueId × GradBuf) → UniqueId → Option GradBuf
  | [], _ => none
  | (j, b) :: rest, i => if j = i then some b else lookupEntry rest i

/-- Replace the buffer held for an identity, or append a fresh entry when
the identity is absent. -/
def setEntry : List (UniqueId × GradBuf) → UniqueId → GradBuf → List (UniqueId × GradBuf)
  | [], i, b => [(i, b)]
  | (j, c) :: rest, i, b => if j = i then (i, b) :: rest else (j, c) :: setEntry rest i b

/-- Modelled from the spec (§Gradient Store, `get_or_alloc`): the buffer for
an identity, a zero-filled buffer of the requested element count when the
identity is not yet present.  This is the read half of the source's
`grads.get_mut(&t)`. -/
def Gradients.getOrAlloc (g : Gradients) (i : UniqueId) (n : Nat) : GradBuf :=
  (lookupEntry g.entries i).getD (List.replicate n 0)

/-- Store a buffer under an identity: the write-back half of mutating the
buffer returned by `grads.get_mut(&t)`. -/
def Gradients.set (g : Gradients) (i : UniqueId) (b : GradBuf) : Gradients :=
  ⟨setEntry g.entries i b⟩

/-- A backward op: a deferred closure that pushes gradients into the store,
returning a device error on failure (spec §Tape). -/
abbrev BackwardOp := Gradients → Except DevErr Gradients

/-- Modelled from the spec: the tape (`GradientTape` inside `OwnedTape` of
the source), an ordered, append-only log of backward ops recorded in
forward-execution order. -/
structure GradientTape where
  ops : List BackwardOp

/-- Append a backward op to the end of the tape (`add_backward_op`). -/
def GradientTape.addBackwardOp (t : GradientTape) (op : BackwardOp) : GradientTape :=
  ⟨t.ops ++ [op]⟩

/-- Run a list of backward ops front to back, threading the store and
stopping at the first device error. -/
def runOpsOnStore : List BackwardOp → Gradients → Except DevErr Gradients
  | [], g => .ok g
  | op :: rest, g => (op g).bind (runOpsOnStore rest)

/-- Modelled from the spec (§Tape, `execute`): iterate the recorded ops in
reverse recording order against the store, failing at the first op that
fails. -/
def GradientTape.execute (t : GradientTape) (g : Gradients) : Except DevErr Gradients :=
  runOpsOnStore t.ops.reverse g

/-- Modelled from the spec: the device capability used by the seed op
(`OneFillStorage` in the source): fallibly fill a buffer with ones. -/
structure Device where
  tryFillOnes : GradBuf → Except DevErr GradBuf

/-- The CPU device's fill: every element becomes `1`, never failing. -/
def cpuDevice : Device := ⟨fun b => .ok (b.map fun _ => (1 : ℚ))⟩

/-- The 0-dimensional (scalar) shape `Rank0`: no dimensions. -/
def Rank0 : List Nat := []

/-- Number of elements held by a shape: the product of its dimensions (one
for `Rank0`). -/
def numel (s : List Nat) : Nat := s.prod

/-- A `Tensor<Rank0, E, D, OwnedTape<D>>`: scalar value, identity, device
and an owned tape. -/
structure Tensor0 where
  id : UniqueId
  data : ℚ
  device : Device
  tape : GradientTape

/-- A `Tensor<Rank0, E, D, NoneTape>`, the tape-free half of `split_tape`. -/
structure Tensor0NoTape where
  id : UniqueId
  data : ℚ
  device : Device

/-- Source `split_tape`: the tensor's value without its tape, paired with
the tape. -/
def Tensor0.splitTape (t : Tensor0) : Tensor0NoTape × GradientTape :=
  (⟨t.id, t.data, t.device⟩, t.tape)

/-- The seed op registered by `try_backward`: fill, with ones, the buffer
the store returns for the tensor's identity (allocating it at the scalar
shape's element count), and write it back — the embedding of the closure
`move |grads| t.device.try_fill_with_ones(grads.get_mut(&t))`. -/
def seedOp (i : UniqueId) (dev : Device) : BackwardOp :=
  fun grads => (dev.tryFillOnes (grads.getOrAlloc i (numel Rank0))).map (grads.set i)

/-- Source `try_backward`: split the tensor into value and tape, register
the seed op, and execute the tape against a fresh empty store. -/
def Tensor0.tryBackward (t : Tensor0) : Except DevErr Gradients :=
  let p := t.splitTape
  (p.2.addBackwardOp (seedOp p.1.id p.1.device)).execute Gradients.empty

/-- Rust `Result::unwrap` as used by the infallible `backward`: a panic is
modelled as `none`. -/
def unwrapOrPanic : Except DevErr Gradients → Option Gradients
  | .ok g => some g
  | .error _ => none

/-- Source `backward`: `self.try_backward().unwrap()`. -/
def Tensor0.backward (t : Tensor0) : Option Gradients :=
  unwrapOrPanic t.tryBackward

/-- Running ops over a concatenated list runs the first list, then the
second on its resulting store. -/
theorem runOpsOnStore_append (l₁ l₂ : List BackwardOp) (g : Gradients) :
    runOpsOnStore (l₁ ++ l₂) g = (runOpsOnStore l₁ g).bind (runOpsOnStore l₂) := by
  induction l₁ generalizing g with
  | nil => rfl
  | cons op rest ih =>
      simp only [List.cons_append, runOpsOnStore]
      cases op g with
      | ok g2 => simpa [Except.bind] using ih g2
      | error e => rfl

/-- Executing a tape whose last recorded op is `op` runs `op` first, then
the rest of the tape. -/
theorem execute_last_op_first (ops : List BackwardOp) (op : BackwardOp) (g : Gradients) :
    GradientTape.execute ⟨ops ++ [op]⟩ g = (op g).bind (GradientTape.execute ⟨ops⟩) := by
  simp only [GradientTape.execute, List.reverse_append, List.reverse_cons,
    List.reverse_nil, List.nil_append, List.singleton_append, runOpsOnStore]
  rfl

/-- An instrumented backward op with an observable side effect: it appends
the entry `(i, [])` to the store, so the store's entry order logs the order
of invocation. -/
def logOp (i : UniqueId) : BackwardOp :=
  fun g => .ok ⟨g.entries ++ [(i, [])]⟩

/-- Claim C2: executing a tape invokes its recorded ops in exactly the
reverse of recording order — instrumented ops leave their marks in reversed
order — ops recorded after others run before them, and in `try_backward`
the seed op, appended last, is the first op the execution runs. -/
theorem tape_executes_in_reverse_order :
    (∀ (ids : List UniqueId) (g : Gradients),
        GradientTape.execute ⟨ids.map logOp⟩ g
          = .ok ⟨g.entries ++ (ids.reverse.map fun i => (i, []))⟩)
    ∧ (∀ (ops : List BackwardOp) (op : BackwardOp) (g : Gradients),
        GradientTape.execute ⟨ops ++ [op]⟩ g = (op g).bind (GradientTape.execute ⟨ops⟩))
    ∧ (∀ t : Tensor0,
        t.tryBackward = (seedOp t.id t.device Gradients.empty).bind (t.tape.execute)) := by
  refine ⟨?_, execute_last_op_first, ?_⟩
  · intro ids
    induction ids with
    | nil => intro g; simp [GradientTape.execute, runOpsOnStore]
    | cons i rest ih =>
        intro g
        have h1 : (i :: rest).map logOp = [logOp i] ++ rest.map logOp := rfl
        have h2 : GradientTape.execute ⟨(i :: rest).map logOp⟩ g
            = runOpsOnStore ((rest.map logOp).reverse ++ [logOp i]) g := by
          simp [GradientTape.execute, h1]
        rw [h2, runOpsOnStore_append]
        have h3 : runOpsOnStore (rest.map logOp).reverse g
            = GradientTape.execute ⟨rest.map logOp⟩ g := rfl
        rw [h3, ih g]
        simp [Except.bind, runOpsOnStore, logOp]
  · intro t
    show GradientTape.execute ⟨t.tape.ops ++ [seedOp t.id t.device]⟩ Gradients.empty = _
    rw [execute_last_op_first]

/-- Claim C1: `try_backward` splits the scalar tensor into its value and
tape, and the op it registers seeds the store at the tensor's identity with
a ones-filled buffer: filling with ones the buffer `get_mut` returns.  On
the CPU device the whole call therefore executes the previously recorded
ops against a store whose only entry is the tensor's identity mapped to the
one-element buffer `[1]` (the element count of the scalar shape is one). -/
theorem try_backward_seeds_gradient_with_ones :
    (∀ t : Tensor0, t.splitTape = (⟨t.id, t.data, t.device⟩, t.tape))
    ∧ (∀ (g : Gradients) (i : UniqueId),
        seedOp i cpuDevice g
          = .ok (g.set i ((g.getOrAlloc i (numel Rank0)).map fun _ => 1)))
    ∧ (∀ (i : UniqueId) (d : ℚ) (ops : List BackwardOp),
        Tensor0.tryBackward ⟨i, d, cpuDevice, ⟨ops⟩⟩
          = GradientTape.execute ⟨ops⟩ ⟨[(i, [(1 : ℚ)])]⟩) := by
  refine ⟨fun t => rfl, fun g i => rfl, ?_⟩
  intro i d ops
  show GradientTape.execute ⟨ops ++ [seedOp i cpuDevice]⟩ Gradients.empty = _
  rw [execute_last_op_first]
  rfl

/-- Claim C5: `try_backward` returns a result — a device error from seeding
or execution is returned and no store is produced — and `backward` is
exactly `try_backward` followed by `unwrap`: the same store on success, a
panic (modelled as `none`) instead of any partial store on error.  A device
whose fill fails makes `try_backward` return that error whatever the tape
holds, since the seed op runs first. -/
theorem backward_unwraps_try_backward :
    ∀ t : Tensor0,
      t.backward = unwrapOrPanic t.tryBackward
      ∧ (∀ g : Gradients, t.tryBackward = .ok g → t.backward = some g)
      ∧ (∀ e : DevErr, t.tryBackward = .error e → t.backward = none)
      ∧ (∀ e : DevErr, ∀ d : ℚ,
          Tensor0.tryBackward ⟨t.id, d, ⟨fun _ => .error e⟩, t.tape⟩ = .error e) := by
  intro t
  refine ⟨rfl, ?_, ?_, ?_⟩
  · intro g h
    simp [Tensor0.backward, h, unwrapOrPanic]
  · intro e h
    simp [Tensor0.backward, h, unwrapOrPanic]
  · intro e d
    show GradientTape.execute ⟨t.tape.ops ++ [seedOp t.id ⟨fun _ => .error e⟩]⟩
        Gradients.empty = _
    rw [execute_last_op_first]
    rfl

/-- The kind of tape type parameter a tensor carries: an owned tape
(`OwnedTape<D>`) or no tape (`NoneTape`). -/
inductive TapeKind where
  | ownedTape
  | noneTape
  deriving DecidableEq

/-- The set of `impl Backward` blocks in `src/tensor_ops/backward.rs`, one
constructor per impl: the file contains exactly one, for
`Tensor<Rank0, E, D, OwnedTape<D>>` — the scalar shape with an owned
tape. -/
inductive BackwardImplExists : List Nat → TapeKind → Prop where
  | rank0Owned : BackwardImplExists Rank0 TapeKind.ownedTape

/-- Claim C6: `backward` and `try_backward` exist exactly for scalar
(`Rank0`) tensors that own a tape; no backward path exists for any
non-scalar shape (or for a tape-free tensor), so the driver never
implicitly reduces a non-scalar tensor. -/
theorem backward_defined_only_for_scalar_owned :
    BackwardImplExists Rank0 TapeKind.ownedTape
    ∧ (∀ (s : List Nat) (k : TapeKind),
        BackwardImplExists s k → s = Rank0 ∧ k = TapeKind.ownedTape)
    ∧ (∀ (s : List Nat) (k : TapeKind),
        s ≠ Rank0 → ¬ BackwardImplExists s k) := by
  refine ⟨.rank0Owned, ?_, ?_⟩
  · intro s k h
    cases h
    exact ⟨rfl, rfl⟩
  · intro s k hs h
    cases h
    exact hs rfl

/- ### Transformer (`src/nn/transformer/mod.rs`)

The encoder and decoder modules themselves live in files outside this
snapshot; per the spec they are modelled as abstract functions on the data,
with the operand's tape moved to the module's output (spec §Tensor tracking:
an operation's result carries the — possibly merged — tape of its tracked
operand; spec design note: tape transfer is a move, at any time exactly one
tensor, or none, owns a given tape). -/

section Transformer

variable {α β τ π υ : Type}

/-- A tensor as the transformer sees it: a data value together with an
optional owned tape (`none` models `NoneTape`). -/
structure Traced (α τ : Type) where
  data : α
  tape : Option τ

/-- Source `split_tape` on a traced value: the tape-free tensor paired with
the tape that was moved out of it. -/
def Traced.splitTape (t : Traced α τ) : Traced α τ × Option τ :=
  (⟨t.data, none⟩, t.tape)

/-- Source `put_tape`: attach a tape to a value, producing the tensor that
now owns it. -/
def putTape (d : β) (tp : Option τ) : Traced β τ :=
  ⟨d, tp⟩

/-- Modelled from the spec: applying a module that is `Module<Src, Output =
Src>` (the encoder) — the data is transformed and the operand's tape moves
to the output. -/
def moduleFwd (f : α → α) (t : Traced α τ) : Traced α τ :=
  ⟨f t.data, t.tape⟩

/-- Modelled from the spec: applying the decoder to the pair of the
tape-carrying target and the tape-free memory; the output carries the
target's tape. -/
def decoderFwd (f : β → α → β) (tgt : Traced β τ) (mem : Traced α τ) : Traced β τ :=
  ⟨f tgt.data mem.data, tgt.tape⟩

/-- The transformer, its encoder and decoder modelled as abstract data
transformations (their source files are not part of this snapshot). -/
structure TransformerM (α β : Type) where
  encoder : α → α
  decoder : β → α → β

/-- Source `Transformer::forward`: run the encoder on the source, split the
tape off the encoder output, attach it to the target, and run the decoder
on the taped target together with the tape-free memory. -/
def TransformerM.forward (T : TransformerM α β) (src : Traced α τ) (tgt : β) :
    Traced β τ :=
  let p := (moduleFwd T.encoder src).splitTape
  decoderFwd T.decoder (putTape tgt p.2) p.1

/-- Source `ModuleMut::forward_mut` for the transformer: delegates to
`forward`, which borrows the parameters immutably, so the state returned
alongside the output is the transformer unchanged. -/
def TransformerM.forwardMut (T : TransformerM α β) (src : Traced α τ) (tgt : β) :
    Traced β τ × TransformerM α β :=
  (T.forward src tgt, T)

/-- Claim C7: in `Transformer::forward` the tape moves by an explicit
split/put: the encoder output carries the source's tape, splitting detaches
it (the memory passed to the decoder carries no tape), putting attaches
that same tape to the target, and the final output carries it — at every
point exactly one tensor (or none) owns the tape and it is never
duplicated. -/
theorem transformer_forward_moves_tape :
    ∀ (T : TransformerM α β) (src : Traced α τ) (tgt : β),
      (moduleFwd T.encoder src).tape = src.tape
      ∧ (moduleFwd T.encoder src).splitTape.1.tape = none
      ∧ (moduleFwd T.encoder src).splitTape.2 = src.tape
      ∧ (putTape tgt (moduleFwd T.encoder src).splitTape.2 : Traced β τ).tape = src.tape
      ∧ (T.forward src tgt).tape = src.tape :=
  fun _ _ _ => ⟨rfl, rfl, rfl, rfl, rfl⟩

/-- Claim C9: `forward_mut` returns exactly what `forward` returns on the
same input and leaves the transformer's parameters unchanged. -/
theorem transformer_forward_mut_is_forward :
    ∀ (T : TransformerM α β) (src : Traced α τ) (tgt : β),
      (T.forwardMut src tgt).1 = T.forward src tgt
      ∧ (T.forwardMut src tgt).2 = T
      ∧ (T.forwardMut src tgt).2.encoder = T.encoder
      ∧ (T.forwardMut src tgt).2.decoder = T.decoder :=
  fun _ _ _ => ⟨rfl, rfl, rfl, rfl⟩

/-- The transformer's trainable state: the encoder's and the decoder's
parameters, each abstracted to one value of a parameter type. -/
structure TransformerP (π : Type) where
  encoder : π
  decoder : π

/-- Modelled from the spec: a parameter updater (`ParamUpdater` plus the
`UnusedTensors` accumulator, both outside this snapshot) is a stateful,
fallible transformation of one sub-module's parameters: it returns the
threaded updater state, the new parameters, and an optional device
error. -/
abbrev Updater (υ π : Type) := υ → π → υ × π × Option DevErr

/-- Source `GradientUpdate::update` for the transformer:
`self.encoder.update(updater, unused)?; self.decoder.update(updater,
unused)?; Ok(())` — encoder first; the `?` on the encoder's failure
returns the error at once, leaving the decoder untouched. -/
def TransformerP.update (t : TransformerP π) (u : Updater υ π) (s : υ) :
    TransformerP π × υ × Option DevErr :=
  match u s t.encoder with
  | (s1, e1, some err) => (⟨e1, t.decoder⟩, s1, some err)
  | (s1, e1, none) =>
      match u s1 t.decoder with
      | (s2, d1, r) => (⟨e1, d1⟩, s2, r)

/-- Claim C8: `Transformer::update` applies the updater to the encoder
first and then the decoder — the decoder's update consumes the updater
state the encoder's update produced — and propagates a device error
immediately: when the encoder's update fails, the error is returned and
the decoder's parameters are unchanged, the updater never having run on
them. -/
theorem transformer_update_encoder_first_error_propagates :
    ∀ (t : TransformerP π) (u : Updater υ π) (s : υ),
      (∀ (s1 : υ) (e1 : π) (err : DevErr),
          u s t.encoder = (s1, e1, some err) →
            t.update u s = (⟨e1, t.decoder⟩, s1, some err)
            ∧ (t.update u s).1.decoder = t.decoder)
      ∧ (∀ (s1 : υ) (e1 : π),
          u s t.encoder = (s1, e1, none) →
            t.update u s
              = (⟨e1, (u s1 t.decoder).2.1⟩, (u s1 t.decoder).1, (u s1 t.decoder).2.2)) := by
  intro t u s
  constructor
  · intro s1 e1 err h
    constructor
    · simp [TransformerP.update, h]
    · simp [TransformerP.update, h]
  · intro s1 e1 h
    simp [TransformerP.update, h]

end Transformer
